import Mathlib

/-!
Shallow embedding of `app/services/audio_service.py` (class `AudioService`)
from the audio_copyright_detector repository.

Paths are modelled as strings already in absolute, normalized form, so that
`os.path.abspath` is the identity on them; filenames are plain strings.
Match scores (Python floats) are modelled as rationals.  The acoustid oracle
call `acoustid.match(api_key, file_path)` is modelled by an explicit
parameter of type `Except String (List RawResult)`: either the list of raw
tuples it returns, or the message of the exception it raises.
-/

/-- Boolean test that `s` begins with the character list `p`
(Python `s.startswith(p)` on the underlying characters). -/
def listStartsWith : List Char → List Char → Bool
  | [], _ => true
  | _ :: _, [] => false
  | c :: cs, d :: ds => (c == d) && listStartsWith cs ds

/-- Spec notion of path containment: `target` has `root` as an ancestor,
i.e. `target` begins with `root` followed by a path separator. -/
def hasAncestor (root target : List Char) : Bool :=
  listStartsWith (root ++ ['/']) target

/-- Drop trailing `/` characters, as `pathlib.Path` does before taking `.name`. -/
def stripTrailingSlashes (s : List Char) : List Char :=
  ((s.reverse).dropWhile (fun c => c == '/')).reverse

/-- The part of `s` after the last `/`. -/
def afterLastSlash (s : List Char) : List Char :=
  s.foldl (fun acc c => if c == '/' then [] else acc ++ [c]) []

/-- `pathlib.Path(s).name`: the final path component. -/
def pathName (s : List Char) : List Char :=
  afterLastSlash (stripTrailingSlashes s)

/-- `Path(s).name` as a string-to-string function. -/
def pathNameStr (s : String) : String :=
  String.mk (pathName s.data)

/-- `pathlib.Path(path).suffix`: the extension of the final component,
including the leading dot; empty when the last dot is at position 0
(hidden files) or at the very end of the name, or when there is no dot. -/
def pathSuffix (path : List Char) : List Char :=
  let name := pathName path
  match List.findIdx? (fun c => c == '.') name.reverse with
  | none => []
  | some j =>
      let i := name.length - 1 - j
      if 0 < i ∧ i + 1 < name.length then name.drop i else []

/-- `AudioService.SUPPORTED_FORMATS`. -/
def SUPPORTED_FORMATS : List String :=
  [".mp3", ".flac", ".ogg", ".m4a", ".wav", ".wma", ".aiff", ".aac"]

/-- `AudioService.is_valid_audio_format`: lower-case the extension of the
filename and test membership in `SUPPORTED_FORMATS`. -/
def is_valid_audio_format (filename : String) : Bool :=
  SUPPORTED_FORMATS.contains (String.mk ((pathSuffix filename.data).map Char.toLower))

/-- The allow-list as the spec writes it, without the leading dots. -/
def specSupportedExts : List String :=
  ["mp3", "flac", "ogg", "m4a", "wav", "wma", "aiff", "aac"]

theorem supportedFormats_mem_iff (l : List Char) :
    SUPPORTED_FORMATS.contains (String.mk l) = true ↔
      ∃ ext ∈ specSupportedExts, l = '.' :: ext.data := by
  have hc : SUPPORTED_FORMATS.contains (String.mk l) = true ↔
      String.mk l ∈ SUPPORTED_FORMATS := by
    simp [List.contains, List.elem_eq_mem]
  rw [hc]
  simp only [SUPPORTED_FORMATS, List.mem_cons, List.not_mem_nil, or_false]
  constructor
  · intro h
    rcases h with h | h | h | h | h | h | h | h
    · exact ⟨"mp3", by simp [specSupportedExts], String.ext_iff.mp h⟩
    · exact ⟨"flac", by simp [specSupportedExts], String.ext_iff.mp h⟩
    · exact ⟨"ogg", by simp [specSupportedExts], String.ext_iff.mp h⟩
    · exact ⟨"m4a", by simp [specSupportedExts], String.ext_iff.mp h⟩
    · exact ⟨"wav", by simp [specSupportedExts], String.ext_iff.mp h⟩
    · exact ⟨"wma", by simp [specSupportedExts], String.ext_iff.mp h⟩
    · exact ⟨"aiff", by simp [specSupportedExts], String.ext_iff.mp h⟩
    · exact ⟨"aac", by simp [specSupportedExts], String.ext_iff.mp h⟩
  · rintro ⟨ext, hmem, rfl⟩
    simp only [specSupportedExts, List.mem_cons, List.not_mem_nil, or_false] at hmem
    rcases hmem with rfl | rfl | rfl | rfl | rfl | rfl | rfl | rfl <;> decide

/-- `AudioService.HIGH_CONFIDENCE`. -/
def HIGH_CONFIDENCE : ℚ := 8/10

/-- `AudioService.MEDIUM_CONFIDENCE`. -/
def MEDIUM_CONFIDENCE : ℚ := 5/10

/-- `AudioService._get_confidence_level`. -/
def get_confidence_level (score : ℚ) : String :=
  if score ≥ HIGH_CONFIDENCE then "high"
  else if score ≥ MEDIUM_CONFIDENCE then "medium"
  else "low"

/-- Round a rational to the nearest integer, ties to even
(the rounding mode of Python's built-in `round`). -/
def roundHalfEven (q : ℚ) : ℤ :=
  let f := ⌊q⌋
  if q - f < 1/2 then f
  else if 1/2 < q - f then f + 1
  else if Even f then f else f + 1

/-- Python `round(score, 2)`: round to two decimal places, ties to even. -/
def round2 (q : ℚ) : ℚ := (roundHalfEven (q * 100) : ℚ) / 100

/-- One raw tuple `(score, recording_id, title, artist)` yielded by
`acoustid.match`; absent title or artist is modelled as the empty string. -/
structure RawResult where
  score : ℚ
  recording_id : String
  title : String
  artist : String
deriving DecidableEq

/-- One entry of the `matches` list built by `identify_audio`. -/
structure MatchCandidate where
  title : String
  artist : String
  recording_id : String
  match_score : ℚ
  confidence : String
deriving DecidableEq

/-- The dict appended to `matches` for one raw tuple: the displayed score is
rounded, the confidence tier is computed from the raw score. -/
def mkCandidate (r : RawResult) : MatchCandidate :=
  { title := r.title
    artist := r.artist
    recording_id := r.recording_id
    match_score := round2 r.score
    confidence := get_confidence_level r.score }

/-- Python truthiness test `m["title"] and m["artist"]`: both strings non-empty. -/
def isCompleteMatch (m : MatchCandidate) : Bool :=
  !m.title.isEmpty && !m.artist.isEmpty

/-- The `top_match` expression of `identify_audio`:
`valid_matches[0] if valid_matches else (matches[0] if matches else None)`. -/
def topMatchOf (ms : List MatchCandidate) : Option MatchCandidate :=
  match (ms.filter isCompleteMatch).head? with
  | some m => some m
  | none => ms.head?

/-- The result dict of `identify_audio`; a field is `none` when the
corresponding key is absent from the returned dict.  For `top_match` the
outer `Option` is key presence and the inner one the (possibly `None`) value. -/
structure IdentificationResult where
  status : String
  error : Option String
  message : Option String
  file : Option String
  «matches» : Option (List MatchCandidate)
  top_match : Option (Option MatchCandidate)
deriving DecidableEq

/-- The observable outcome of one `identify_audio` call: the returned dict,
whether the acoustid oracle was invoked, and whether the `finally` block
deleted the input file. -/
structure CallOutcome where
  result : IdentificationResult
  oracleInvoked : Bool
  fileDeleted : Bool
deriving DecidableEq

/-- `AudioService.api_key_configured`, i.e. Python `bool(self.api_key)`:
`os.getenv` yielded a string and it is non-empty. -/
def api_key_configured (apiKey : Option String) : Bool :=
  match apiKey with
  | none => false
  | some k => !k.isEmpty

/-- The guard of the `finally` block:
`os.path.abspath(file_path).startswith(os.path.abspath(self.temp_dir))`
(paths are modelled as already absolute and normalized, where `abspath`
is the identity). -/
def cleanupRuns (temp_dir file_path : String) : Bool :=
  listStartsWith temp_dir.data file_path.data

/-- `AudioService.identify_audio`.  `apiKey` and `temp_dir` are the fields
set in `__init__`; `oracle` is the behaviour of `acoustid.match` on this
path (its returned list, or the message of the exception it raises);
`fileExists` is whether `file_path` exists when `_cleanup_file` checks. -/
def identify_audio (apiKey : Option String) (temp_dir : String)
    (oracle : Except String (List RawResult))
    (file_path : String) (fileExists : Bool) : CallOutcome :=
  let deleted := cleanupRuns temp_dir file_path && fileExists
  if api_key_configured apiKey then
    match oracle with
    | Except.error e =>
        { result := { status := "error", error := some e, message := none,
                      file := some (pathNameStr file_path),
                      «matches» := none, top_match := none }
          oracleInvoked := true, fileDeleted := deleted }
    | Except.ok [] =>
        { result := { status := "not_found", error := none,
                      message := some "No match found in AcoustID database",
                      file := some (pathNameStr file_path),
                      «matches» := none, top_match := none }
          oracleInvoked := true, fileDeleted := deleted }
    | Except.ok rs =>
        let ms := rs.map mkCandidate
        { result := { status := "found", error := none, message := none,
                      file := some (pathNameStr file_path),
                      «matches» := some ms,
                      top_match := some (topMatchOf ms) }
          oracleInvoked := true, fileDeleted := deleted }
  else
    { result := { status := "error",
                  error := some "AcoustID API key not configured",
                  message := none, file := none,
                  «matches» := none, top_match := none }
      oracleInvoked := false, fileDeleted := deleted }

/-- Well-formedness of a result: the status is one of the three legal
values, an error result carries an error message, and a found result
carries the candidate list and the top-match field. -/
def wellFormed (r : IdentificationResult) : Prop :=
  (r.status = "error" ∨ r.status = "not_found" ∨ r.status = "found") ∧
  (r.status = "error" → r.error.isSome = true) ∧
  (r.status = "found" → r.«matches».isSome = true ∧ r.top_match.isSome = true)

theorem listStartsWith_append_left (a b s : List Char)
    (h : listStartsWith (a ++ b) s = true) : listStartsWith a s = true := by
  induction a generalizing s with
  | nil => rfl
  | cons c cs ih =>
    cases s with
    | nil => simp [listStartsWith] at h
    | cons d ds =>
      simp only [List.cons_append, listStartsWith, Bool.and_eq_true, beq_iff_eq] at h ⊢
      exact ⟨h.1, ih ds h.2⟩

theorem filter_head_eq_find {α : Type} (p : α → Bool) (l : List α) :
    (l.filter p).head? = l.find? p := by
  induction l with
  | nil => rfl
  | cons a t ih =>
    cases hp : p a <;> simp [List.filter_cons, List.find?_cons, hp, ih]

theorem topMatchOf_eq_find (ms : List MatchCandidate) :
    topMatchOf ms = (ms.find? isCompleteMatch).orElse (fun _ => ms.head?) := by
  unfold topMatchOf
  rw [filter_head_eq_find]
  cases ms.find? isCompleteMatch <;> rfl

theorem topMatchOf_isSome (m : MatchCandidate) (t : List MatchCandidate) :
    ∃ tm, topMatchOf (m :: t) = some tm := by
  unfold topMatchOf
  cases h : ((m :: t).filter isCompleteMatch).head? with
  | some x => exact ⟨x, rfl⟩
  | none => exact ⟨m, rfl⟩

/-- Claim C1: for every input path and every oracle behaviour (non-empty
list, empty list, or raised exception) `identify_audio` returns a
well-formed `IdentificationResult` and never raises; an oracle exception is
converted into a result with status `"error"` carrying the exception's
message and the source filename. -/
theorem identify_never_raises (apiKey : Option String) (td fp : String) (fe : Bool)
    (oracle : Except String (List RawResult)) :
    wellFormed (identify_audio apiKey td oracle fp fe).result ∧
    (∀ e, api_key_configured apiKey = true → oracle = Except.error e →
      (identify_audio apiKey td oracle fp fe).result.status = "error" ∧
      (identify_audio apiKey td oracle fp fe).result.error = some e ∧
      (identify_audio apiKey td oracle fp fe).result.file = some (pathNameStr fp)) := by
  constructor
  · unfold wellFormed
    cases hak : api_key_configured apiKey
    · simp [identify_audio, hak]
    · cases oracle with
      | error e => simp [identify_audio, hak]
      | ok rs => cases rs <;> simp [identify_audio, hak]
  · intro e hk he
    subst he
    refine ⟨?_, ?_, ?_⟩ <;> simp [identify_audio, hk]

theorem identify_never_raises_witness :
    (identify_audio (some "k") "/tmp" (Except.error "boom") "/a/b.mp3" false).result.status = "error" ∧
    (identify_audio (some "k") "/tmp" (Except.error "boom") "/a/b.mp3" false).result.error = some "boom" ∧
    (identify_audio (some "k") "/tmp" (Except.error "boom") "/a/b.mp3" false).result.file =
      some (pathNameStr "/a/b.mp3") :=
  (identify_never_raises (some "k") "/tmp" "/a/b.mp3" false (Except.error "boom")).2
    "boom" (by decide) rfl

/-- Claim C2: the claim asserts that a path whose resolved form is not
contained within the scratch root is never deleted.  The code instead
guards cleanup with a plain string test
`abs_file.startswith(abs_temp)`, so a path such as `/tmpfoo/song.mp3`,
which is NOT contained in the scratch root `/tmp`, still passes the guard
and is deleted; this contradicts both the spec's containment rule and the
code's own comment ("Only delete files created in system temp directory"). -/
theorem cleanup_guard_is_string_test_not_containment :
    hasAncestor "/tmp".data "/tmpfoo/song.mp3".data = false ∧
    (identify_audio (some "k") "/tmp" (Except.ok []) "/tmpfoo/song.mp3" true).fileDeleted = true := by
  constructor
  · decide
  · decide

/-- Claim C3: when the input path lies inside the scratch directory
(the scratch root is an ancestor of the path) and the file exists, every
call of `identify_audio` deletes it, whatever the credential state and
whatever the oracle does (returns matches, returns an empty list, or
raises). -/
theorem scratch_file_always_deleted (apiKey : Option String) (td fp : String)
    (oracle : Except String (List RawResult))
    (h : hasAncestor td.data fp.data = true) :
    (identify_audio apiKey td oracle fp true).fileDeleted = true := by
  have hg : cleanupRuns td fp = true :=
    listStartsWith_append_left td.data ['/'] fp.data h
  cases hak : api_key_configured apiKey
  · simp [identify_audio, hak, hg]
  · cases oracle with
    | error e => simp [identify_audio, hak, hg]
    | ok rs => cases rs <;> simp [identify_audio, hak, hg]

theorem scratch_file_always_deleted_witness :
    (identify_audio (some "k") "/tmp" (Except.error "boom") "/tmp/audio_ab.mp3" true).fileDeleted = true :=
  scratch_file_always_deleted (some "k") "/tmp" "/tmp/audio_ab.mp3" (Except.error "boom") (by decide)

/-- Claim C4: for a non-empty oracle result list the selected top match is
the first candidate (in oracle order) whose title and artist are both
non-empty, falling back to the very first candidate when none qualifies;
and whenever the status is `"found"` a top match is present. -/
theorem top_match_rule (apiKey : Option String) (td fp : String) (fe : Bool)
    (rs : List RawResult) (hk : api_key_configured apiKey = true) (hne : rs ≠ []) :
    (identify_audio apiKey td (Except.ok rs) fp fe).result.status = "found" ∧
    (identify_audio apiKey td (Except.ok rs) fp fe).result.top_match =
      some (((rs.map mkCandidate).find? isCompleteMatch).orElse
        (fun _ => (rs.map mkCandidate).head?)) ∧
    ∃ tm, (identify_audio apiKey td (Except.ok rs) fp fe).result.top_match = some (some tm) := by
  cases rs with
  | nil => exact absurd rfl hne
  | cons a t =>
    refine ⟨?_, ?_, ?_⟩
    · simp [identify_audio, hk]
    · simp only [identify_audio, hk, if_true, List.map_cons]
      simp only [← List.map_cons]
      rw [topMatchOf_eq_find]
    · obtain ⟨tm, htm⟩ := topMatchOf_isSome (mkCandidate a) (t.map mkCandidate)
      exact ⟨tm, by simp [identify_audio, hk, htm]⟩

theorem top_match_rule_witness :
    (identify_audio (some "k") "/tmp"
        (Except.ok [⟨9/10, "r1", "", "Artist A"⟩, ⟨6/10, "r2", "Title B", "Artist B"⟩])
        "/a/b.mp3" false).result.status = "found" ∧
    (identify_audio (some "k") "/tmp"
        (Except.ok [⟨9/10, "r1", "", "Artist A"⟩, ⟨6/10, "r2", "Title B", "Artist B"⟩])
        "/a/b.mp3" false).result.top_match =
      some (((([⟨9/10, "r1", "", "Artist A"⟩, ⟨6/10, "r2", "Title B", "Artist B"⟩] : List RawResult).map
            mkCandidate).find? isCompleteMatch).orElse
        (fun _ => (([⟨9/10, "r1", "", "Artist A"⟩, ⟨6/10, "r2", "Title B", "Artist B"⟩] : List RawResult).map
            mkCandidate).head?)) ∧
    ∃ tm, (identify_audio (some "k") "/tmp"
        (Except.ok [⟨9/10, "r1", "", "Artist A"⟩, ⟨6/10, "r2", "Title B", "Artist B"⟩])
        "/a/b.mp3" false).result.top_match = some (some tm) :=
  top_match_rule (some "k") "/tmp" "/a/b.mp3" false
    [⟨9/10, "r1", "", "Artist A"⟩, ⟨6/10, "r2", "Title B", "Artist B"⟩]
    (by decide) (List.cons_ne_nil _ _)

/-- Claim C5: the classifier returns `"high"` iff the score is at least
0.8, `"medium"` iff it is at least 0.5 and below 0.8, and `"low"` iff it is
below 0.5; the boundary scores 0.8 and 0.5 classify as high and medium.
The three iff clauses make the tiers pairwise disjoint and exhaustive over
all scores, in particular over `[0,1]`. -/
theorem classify_partition (s : ℚ) :
    (get_confidence_level s = "high" ↔ 8/10 ≤ s) ∧
    (get_confidence_level s = "medium" ↔ 5/10 ≤ s ∧ s < 8/10) ∧
    (get_confidence_level s = "low" ↔ s < 5/10) ∧
    get_confidence_level (8/10) = "high" ∧
    get_confidence_level (5/10) = "medium" := by
  have hb1 : get_confidence_level (8/10) = "high" := by
    unfold get_confidence_level HIGH_CONFIDENCE
    rw [if_pos (le_refl ((8:ℚ)/10))]
  have hb2 : get_confidence_level (5/10) = "medium" := by
    unfold get_confidence_level HIGH_CONFIDENCE MEDIUM_CONFIDENCE
    rw [if_neg (by norm_num), if_pos (le_refl ((5:ℚ)/10))]
  refine ⟨?_, ?_, ?_, hb1, hb2⟩
  · unfold get_confidence_level HIGH_CONFIDENCE MEDIUM_CONFIDENCE
    split_ifs with h1 h2
    · exact ⟨fun _ => h1, fun _ => rfl⟩
    · exact ⟨fun hh => absurd hh (by decide), fun hh => absurd hh h1⟩
    · exact ⟨fun hh => absurd hh (by decide), fun hh => absurd hh h1⟩
  · unfold get_confidence_level HIGH_CONFIDENCE MEDIUM_CONFIDENCE
    split_ifs with h1 h2
    · exact ⟨fun hh => absurd hh (by decide), fun hh => absurd h1 (not_le.mpr hh.2)⟩
    · exact ⟨fun _ => ⟨h2, not_le.mp h1⟩, fun _ => rfl⟩
    · exact ⟨fun hh => absurd hh (by decide), fun hh => absurd hh.1 h2⟩
  · unfold get_confidence_level HIGH_CONFIDENCE MEDIUM_CONFIDENCE
    split_ifs with h1 h2
    · exact ⟨fun hh => absurd hh (by decide),
        fun hh => absurd h1 (not_le.mpr (lt_of_lt_of_le hh (by norm_num)))⟩
    · exact ⟨fun hh => absurd hh (by decide), fun hh => absurd h2 (not_le.mpr hh)⟩
    · exact ⟨fun _ => not_le.mp h2, fun _ => rfl⟩

/-- Claim C6: each candidate built by `identify_audio` stores the raw score
rounded to two decimal places as its displayed `match_score`, while its
confidence tier is computed from the raw unrounded score; in particular for
the raw score 0.796 the displayed score is 0.8 yet the tier is `"medium"`. -/
theorem candidate_rounding (apiKey : Option String) (td fp : String) (fe : Bool)
    (rs : List RawResult) (i : Nat)
    (hk : api_key_configured apiKey = true) (h : i < rs.length) :
    ∃ ms, (identify_audio apiKey td (Except.ok rs) fp fe).result.«matches» = some ms ∧
      ms[i]? = some { title := rs[i].title
                      artist := rs[i].artist
                      recording_id := rs[i].recording_id
                      match_score := round2 rs[i].score
                      confidence := get_confidence_level rs[i].score } ∧
      round2 (796/1000) = 8/10 ∧ get_confidence_level (796/1000) = "medium" := by
  have hnum : round2 (796/1000) = 8/10 := by
    unfold round2
    have hmul : (796/1000 : ℚ) * 100 = 796/10 := by norm_num
    rw [hmul]
    have hfl : ⌊(796/10 : ℚ)⌋ = 79 := by norm_num [Int.floor_eq_iff]
    have hr : roundHalfEven (796/10) = 80 := by
      unfold roundHalfEven
      rw [hfl]
      norm_num
    rw [hr]
    norm_num
  have htier : get_confidence_level (796/1000) = "medium" := by
    unfold get_confidence_level HIGH_CONFIDENCE MEDIUM_CONFIDENCE
    rw [if_neg (by norm_num), if_pos (by norm_num)]
  cases rs with
  | nil => exact absurd h (by simp)
  | cons a t =>
    refine ⟨(a :: t).map mkCandidate, ?_, ?_, hnum, htier⟩
    · simp [identify_audio, hk]
    · rw [List.getElem?_map, List.getElem?_eq_getElem h]
      rfl

theorem candidate_rounding_witness :
    ∃ ms, (identify_audio (some "k") "/tmp" (Except.ok [⟨796/1000, "r1", "T", "A"⟩])
        "/tmp/a.mp3" true).result.«matches» = some ms ∧
      ms[0]? = some { title := "T", artist := "A", recording_id := "r1",
                         match_score := round2 (796/1000),
                         confidence := get_confidence_level (796/1000) } ∧
      round2 (796/1000) = 8/10 ∧ get_confidence_level (796/1000) = "medium" :=
  candidate_rounding (some "k") "/tmp" "/tmp/a.mp3" true
    [⟨796/1000, "r1", "T", "A"⟩] 0 (by decide) (by decide)

/-- Claim C7: the format gate returns true iff the filename's extension,
compared case-insensitively, is one of mp3, flac, ogg, m4a, wav, wma, aiff,
aac; for a missing or unknown extension it returns false (it is total and
never signals an error). -/
theorem format_gate_iff (filename : String) :
    is_valid_audio_format filename = true ↔
      ∃ ext ∈ specSupportedExts,
        (pathSuffix filename.data).map Char.toLower = '.' :: ext.data := by
  unfold is_valid_audio_format
  exact supportedFormats_mem_iff _

/-- Claim C8 is corrected by this counterexample: with the credential
absent and the input path inside the scratch directory, the call still
performs file-deletion I/O before returning (the `finally` block deletes
the scratch-resident file), so "no I/O is performed before returning" is
false; the oracle itself is indeed never invoked. -/
theorem credential_missing_still_deletes :
    (identify_audio none "/tmp" (Except.ok []) "/tmp/upload.mp3" true).result.status = "error" ∧
    (identify_audio none "/tmp" (Except.ok []) "/tmp/upload.mp3" true).oracleInvoked = false ∧
    (identify_audio none "/tmp" (Except.ok []) "/tmp/upload.mp3" true).fileDeleted = true := by
  refine ⟨?_, ?_, ?_⟩ <;> decide

/-- Claim C8 (amended): when the oracle credential is absent the result has
status `"error"` with the fixed message "AcoustID API key not configured",
the oracle is never invoked, and the only I/O performed before returning is
the unconditional cleanup step, which deletes the input file exactly when
the string-test guard passes and the file exists. -/
theorem credential_missing_short_circuit (apiKey : Option String) (td fp : String)
    (fe : Bool) (oracle : Except String (List RawResult))
    (h : api_key_configured apiKey = false) :
    (identify_audio apiKey td oracle fp fe).result.status = "error" ∧
    (identify_audio apiKey td oracle fp fe).result.error =
      some "AcoustID API key not configured" ∧
    (identify_audio apiKey td oracle fp fe).oracleInvoked = false ∧
    (identify_audio apiKey td oracle fp fe).fileDeleted = (cleanupRuns td fp && fe) := by
  refine ⟨?_, ?_, ?_, ?_⟩ <;> simp [identify_audio, h]

theorem credential_missing_short_circuit_witness :
    (identify_audio none "/x" (Except.ok []) "/a/b.mp3" false).result.status = "error" ∧
    (identify_audio none "/x" (Except.ok []) "/a/b.mp3" false).result.error =
      some "AcoustID API key not configured" ∧
    (identify_audio none "/x" (Except.ok []) "/a/b.mp3" false).oracleInvoked = false ∧
    (identify_audio none "/x" (Except.ok []) "/a/b.mp3" false).fileDeleted =
      (cleanupRuns "/x" "/a/b.mp3" && false) :=
  credential_missing_short_circuit none "/x" "/a/b.mp3" false (Except.ok []) rfl

/-- Claim C9: when the oracle succeeds and returns an empty list, the
result has status `"not_found"`, which is distinct from `"error"`. -/
theorem empty_results_not_found (apiKey : Option String) (td fp : String) (fe : Bool)
    (hk : api_key_configured apiKey = true) :
    (identify_audio apiKey td (Except.ok []) fp fe).result.status = "not_found" ∧
    (identify_audio apiKey td (Except.ok []) fp fe).result.status ≠ "error" := by
  constructor
  · simp [identify_audio, hk]
  · simp [identify_audio, hk]

theorem empty_results_not_found_witness :
    (identify_audio (some "k") "/tmp" (Except.ok []) "/a/b.mp3" false).result.status = "not_found" ∧
    (identify_audio (some "k") "/tmp" (Except.ok []) "/a/b.mp3" false).result.status ≠ "error" :=
  empty_results_not_found (some "k") "/tmp" "/a/b.mp3" false (by decide)

/-- Claim C10: with the credential absent the returned dict consists only
of the status and the error message (no filename, message, matches or
top-match keys), whereas with the credential present every outcome — oracle
error, empty results, and non-empty results — carries the source filename. -/
theorem file_field_presence (apiKey : Option String) (td fp : String) (fe : Bool)
    (oracle : Except String (List RawResult)) :
    (api_key_configured apiKey = false →
      (identify_audio apiKey td oracle fp fe).result =
        { status := "error", error := some "AcoustID API key not configured",
          message := none, file := none, «matches» := none, top_match := none }) ∧
    (api_key_configured apiKey = true →
      (identify_audio apiKey td oracle fp fe).result.file = some (pathNameStr fp)) := by
  constructor
  · intro h
    simp [identify_audio, h]
  · intro h
    cases oracle with
    | error e => simp [identify_audio, h]
    | ok rs => cases rs <;> simp [identify_audio, h]

theorem file_field_presence_witness :
    (identify_audio none "/tmp" (Except.ok []) "/a/b.mp3" false).result =
      { status := "error", error := some "AcoustID API key not configured",
        message := none, file := none, «matches» := none, top_match := none } ∧
    (identify_audio (some "k") "/tmp" (Except.error "boom") "/a/b.mp3" false).result.file =
      some (pathNameStr "/a/b.mp3") :=
  ⟨(file_field_presence none "/tmp" "/a/b.mp3" false (Except.ok [])).1 rfl,
   (file_field_presence (some "k") "/tmp" "/a/b.mp3" false (Except.error "boom")).2 (by decide)⟩
